import Mathlib

/-!
Verification of the lezec.cz diary import pipeline of the
KGB-Karst-Guide-Book backend (`backend/lists/services.py`,
`backend/boulders/utils.py`, `backend/boulders/models.py`).

The Python source is shallowly embedded: pure helpers become Lean
functions on `String`/`List Char`, the Django stores become explicit
list-valued states threaded through the functions, and the HTML tree
handed around by BeautifulSoup becomes an explicit inductive tree.
Unicode-dependent library calls (`unicodedata.normalize("NFD", ·)`,
`str.lower`, `str.encode("windows-1250")`, `\s` in `re`) are embedded by
their data tables restricted to the repertoire of characters this
application manipulates (ASCII plus accented Latin letters used in Czech
names); the tables are faithful to the Unicode character database on
that repertoire.
-/

set_option maxHeartbeats 1000000

namespace KGB

/-- Case-sensitive substring test on character lists, modelling Python's
`needle in hay` for `str` values. -/
def listContainsInfix (needle : List Char) : List Char → Bool
  | [] => needle.isEmpty
  | c :: t => needle.isPrefixOf (c :: t) || listContainsInfix needle t

/-- `strContains hay needle` models Python `needle in hay`. -/
def strContains (hay needle : String) : Bool :=
  listContainsInfix needle.data hay.data

/-- Characters matched by Python's `\s` regex class on `str` (also the set
stripped by `str.strip()`): ASCII whitespace, the C1 separators, and the
Unicode space separators. -/
def pySpace (c : Char) : Bool :=
  let n := c.toNat
  (9 ≤ n && n ≤ 13) || (28 ≤ n && n ≤ 31) || n == 32 || n == 0x85 || n == 0xA0 ||
    n == 0x1680 || (0x2000 ≤ n && n ≤ 0x200A) || n == 0x2028 || n == 0x2029 ||
    n == 0x202F || n == 0x205F || n == 0x3000

/-- Combining diacritical marks (U+0300–U+036F), the characters of Unicode
category `Mn` produced by decomposing the Latin letters of this
application's repertoire; models `unicodedata.category(ch) == "Mn"`. -/
def isCombiningMark (c : Char) : Bool :=
  0x300 ≤ c.toNat && c.toNat ≤ 0x36F

/-- U+0300 COMBINING GRAVE ACCENT -/
def markGrave : Char := Char.ofNat 0x300
/-- U+0301 COMBINING ACUTE ACCENT -/
def markAcute : Char := Char.ofNat 0x301
/-- U+0302 COMBINING CIRCUMFLEX ACCENT -/
def markCirc : Char := Char.ofNat 0x302
/-- U+0303 COMBINING TILDE -/
def markTilde : Char := Char.ofNat 0x303
/-- U+0308 COMBINING DIAERESIS -/
def markDia : Char := Char.ofNat 0x308
/-- U+030A COMBINING RING ABOVE -/
def markRing : Char := Char.ofNat 0x30A
/-- U+030C COMBINING CARON -/
def markCaron : Char := Char.ofNat 0x30C
/-- U+0327 COMBINING CEDILLA -/
def markCedilla : Char := Char.ofNat 0x327

/-- Canonical (NFD) decompositions of the precomposed Latin letters in the
modelled repertoire, per the Unicode character database; models
`unicodedata.normalize("NFD", ·)` character by character. Characters not
listed decompose to themselves. -/
def nfdTable : List (Char × List Char) :=
  [ ('á', ['a', markAcute]), ('à', ['a', markGrave]), ('â', ['a', markCirc]),
    ('ã', ['a', markTilde]), ('ä', ['a', markDia]),
    ('ç', ['c', markCedilla]), ('č', ['c', markCaron]),
    ('ď', ['d', markCaron]),
    ('é', ['e', markAcute]), ('è', ['e', markGrave]), ('ê', ['e', markCirc]),
    ('ë', ['e', markDia]), ('ě', ['e', markCaron]),
    ('í', ['i', markAcute]), ('ì', ['i', markGrave]), ('î', ['i', markCirc]),
    ('ï', ['i', markDia]),
    ('ñ', ['n', markTilde]), ('ň', ['n', markCaron]),
    ('ó', ['o', markAcute]), ('ò', ['o', markGrave]), ('ô', ['o', markCirc]),
    ('õ', ['o', markTilde]), ('ö', ['o', markDia]),
    ('ř', ['r', markCaron]),
    ('š', ['s', markCaron]),
    ('ť', ['t', markCaron]),
    ('ú', ['u', markAcute]), ('ù', ['u', markGrave]), ('û', ['u', markCirc]),
    ('ü', ['u', markDia]), ('ů', ['u', markRing]),
    ('ý', ['y', markAcute]),
    ('ž', ['z', markCaron]),
    ('Á', ['A', markAcute]), ('À', ['A', markGrave]), ('Â', ['A', markCirc]),
    ('Ã', ['A', markTilde]), ('Ä', ['A', markDia]),
    ('Ç', ['C', markCedilla]), ('Č', ['C', markCaron]),
    ('Ď', ['D', markCaron]),
    ('É', ['E', markAcute]), ('È', ['E', markGrave]), ('Ê', ['E', markCirc]),
    ('Ë', ['E', markDia]), ('Ě', ['E', markCaron]),
    ('Í', ['I', markAcute]), ('Ì', ['I', markGrave]), ('Î', ['I', markCirc]),
    ('Ï', ['I', markDia]),
    ('Ñ', ['N', markTilde]), ('Ň', ['N', markCaron]),
    ('Ó', ['O', markAcute]), ('Ò', ['O', markGrave]), ('Ô', ['O', markCirc]),
    ('Õ', ['O', markTilde]), ('Ö', ['O', markDia]),
    ('Ř', ['R', markCaron]),
    ('Š', ['S', markCaron]),
    ('Ť', ['T', markCaron]),
    ('Ú', ['U', markAcute]), ('Ù', ['U', markGrave]), ('Û', ['U', markCirc]),
    ('Ü', ['U', markDia]), ('Ů', ['U', markRing]),
    ('Ý', ['Y', markAcute]),
    ('Ž', ['Z', markCaron]) ]

/-- NFD decomposition of a single character (identity off the table). -/
def nfdChar (c : Char) : List Char :=
  (nfdTable.lookup c).getD [c]

/-- Lowercase table for the precomposed accented capitals of the modelled
repertoire (the non-ASCII part of Python `str.lower`). -/
def accentedLowerTable : List (Char × Char) :=
  [ ('Á', 'á'), ('À', 'à'), ('Â', 'â'), ('Ã', 'ã'), ('Ä', 'ä'),
    ('Ç', 'ç'), ('Č', 'č'), ('Ď', 'ď'),
    ('É', 'é'), ('È', 'è'), ('Ê', 'ê'), ('Ë', 'ë'), ('Ě', 'ě'),
    ('Í', 'í'), ('Ì', 'ì'), ('Î', 'î'), ('Ï', 'ï'),
    ('Ñ', 'ñ'), ('Ň', 'ň'),
    ('Ó', 'ó'), ('Ò', 'ò'), ('Ô', 'ô'), ('Õ', 'õ'), ('Ö', 'ö'),
    ('Ř', 'ř'), ('Š', 'š'), ('Ť', 'ť'),
    ('Ú', 'ú'), ('Ù', 'ù'), ('Û', 'û'), ('Ü', 'ü'), ('Ů', 'ů'),
    ('Ý', 'ý'), ('Ž', 'ž') ]

/-- Uppercase table, the inverse direction (non-ASCII part of `str.upper`). -/
def accentedUpperTable : List (Char × Char) :=
  accentedLowerTable.map (fun p => (p.2, p.1))

/-- Python `str.lower` on one character, over the modelled repertoire
(ASCII letters by code arithmetic, accented capitals by table). -/
def pyLowerChar (c : Char) : Char :=
  if 65 ≤ c.toNat ∧ c.toNat ≤ 90 then Char.ofNat (c.toNat + 32)
  else match accentedLowerTable.lookup c with
       | some d => d
       | none => c

/-- Python `str.upper` on one character, over the modelled repertoire. -/
def pyUpperChar (c : Char) : Char :=
  if 97 ≤ c.toNat ∧ c.toNat ≤ 122 then Char.ofNat (c.toNat - 32)
  else match accentedUpperTable.lookup c with
       | some d => d
       | none => c

/-- Python `str.lower` over the modelled repertoire. -/
def pyLowerStr (s : String) : String :=
  ⟨s.data.map pyLowerChar⟩

/-- Python `str.upper` over the modelled repertoire. -/
def pyUpperStr (s : String) : String :=
  ⟨s.data.map pyUpperChar⟩

/-- One pass of `re.sub(r"\s+", " ", ·)`: every maximal run of whitespace
characters is replaced by a single space.  `prevSpace` records whether the
previous character belonged to a whitespace run already replaced. -/
def subWsAux : Bool → List Char → List Char
  | _, [] => []
  | prevSpace, c :: cs =>
    if pySpace c then
      if prevSpace then subWsAux true cs
      else ' ' :: subWsAux true cs
    else c :: subWsAux false cs

/-- Python `str.strip()`: drop whitespace from both ends. -/
def pyStripList (l : List Char) : List Char :=
  ((l.dropWhile pySpace).reverse.dropWhile pySpace).reverse

/-- `re.sub(r"\s+", " ", l).strip()` from `normalize_problem_name`. -/
def collapseWs (l : List Char) : List Char :=
  pyStripList (subWsAux false l)

/-- The character-level part of `normalize_problem_name`: NFD-decompose,
drop combining marks, lowercase. -/
def pipelineChars (l : List Char) : List Char :=
  ((l.flatMap nfdChar).filter (fun c => !isCombiningMark c)).map pyLowerChar

/-- `boulders/utils.py` `normalize_problem_name`: NFD-decompose, drop
combining marks, lowercase, collapse whitespace; `None`/empty input maps
to the empty string. -/
def normalize_problem_name (name : Option String) : String :=
  match name with
  | none => ""
  | some s =>
    if s = "" then ""
    else ⟨collapseWs (pipelineChars s.data)⟩

/-- A character untouched by the normalization pipeline: it decomposes to
itself, is not a combining mark, and is already lowercase. -/
def charGround (c : Char) : Bool :=
  nfdChar c == [c] && !isCombiningMark c && pyLowerChar c == c

/-- Scan predicate for collapsed whitespace: no whitespace character other
than a single space, and no space right after a space (nor at the front
when the flag is set). -/
def okSeq : Bool → List Char → Bool
  | _, [] => true
  | b, c :: cs =>
    if c = ' ' then !b && okSeq true cs
    else !pySpace c && okSeq false cs

/-- `normalize_problem_name` applied to a present string. -/
def normalizeName (s : String) : String :=
  normalize_problem_name (some s)

/-! ### Identifier Encoder (`_encode_to_lezec_hex`, `_generate_username_strategies`) -/

/-- One lowercase/uppercase hexadecimal digit. -/
def hexDigit (upper : Bool) (n : Nat) : Char :=
  if n < 10 then Char.ofNat (48 + n)
  else if upper then Char.ofNat (55 + n) else Char.ofNat (87 + n)

/-- Hexadecimal digits of `n`, most significant first (empty for 0); the
first argument is fuel, always called with at least the digit count. -/
def hexDigitsAux (upper : Bool) : Nat → Nat → List Char
  | 0, _ => []
  | fuel + 1, n =>
    if n = 0 then []
    else hexDigitsAux upper fuel (n / 16) ++ [hexDigit upper (n % 16)]

/-- Hexadecimal digits of `n`, most significant first (empty for 0). -/
def hexDigits (upper : Bool) (n : Nat) : List Char :=
  hexDigitsAux upper n n

/-- Python `f"\x7bn:02x\x7d"` / `f"\x7bn:02X\x7d"`: hex, zero-padded to at
least two digits. -/
def formatHex02 (upper : Bool) (n : Nat) : List Char :=
  let d := hexDigits upper n
  if d.length < 2 then List.replicate (2 - d.length) '0' ++ d else d

/-- The windows-1250 byte for a character of the modelled repertoire:
ASCII maps to itself, the Czech/Latin-2 accented letters to their
windows-1250 code, anything else is outside the repertoire and raises
`UnicodeEncodeError` in `str.encode("windows-1250")` (here: `none`). -/
def cp1250Table : List (Char × Nat) :=
  [ ('á', 0xE1), ('â', 0xE2), ('ä', 0xE4), ('ç', 0xE7), ('č', 0xE8),
    ('ď', 0xEF), ('é', 0xE9), ('ě', 0xEC), ('ë', 0xEB), ('í', 0xED),
    ('î', 0xEE), ('ň', 0xF2), ('ó', 0xF3), ('ô', 0xF4), ('ö', 0xF6),
    ('ř', 0xF8), ('š', 0x9A), ('ť', 0x9D), ('ú', 0xFA), ('ů', 0xF9),
    ('ü', 0xFC), ('ý', 0xFD), ('ž', 0x9E),
    ('Á', 0xC1), ('Â', 0xC2), ('Ä', 0xC4), ('Ç', 0xC7), ('Č', 0xC8),
    ('Ď', 0xCF), ('É', 0xC9), ('Ě', 0xCC), ('Ë', 0xCB), ('Í', 0xCD),
    ('Î', 0xCE), ('Ň', 0xD2), ('Ó', 0xD3), ('Ô', 0xD4), ('Ö', 0xD6),
    ('Ř', 0xD8), ('Š', 0x8A), ('Ť', 0x8D), ('Ú', 0xDA), ('Ů', 0xD9),
    ('Ü', 0xDC), ('Ý', 0xDD), ('Ž', 0x8E) ]

/-- Encode one character to its windows-1250 byte, `none` when the
character is outside the encoding's repertoire. -/
def cp1250Byte (c : Char) : Option Nat :=
  if c.toNat < 128 then some c.toNat
  else cp1250Table.lookup c

/-- `lists/services.py` `_encode_to_lezec_hex`: hex-encode `text` for the
`uid` query parameter.  With `use_windows1250` the windows-1250 bytes are
hex-encoded; if that encoding fails (`UnicodeEncodeError`) the function
falls back to hex of the Unicode code points, which is also the default
branch. -/
def _encode_to_lezec_hex (text : String) (uppercase use_windows1250 : Bool) : String :=
  let unicodeHex : String :=
    ⟨(text.data.map (fun c => formatHex02 uppercase c.toNat)).flatten⟩
  if use_windows1250 then
    match text.data.mapM cp1250Byte with
    | some bytesEncoded => ⟨(bytesEncoded.map (formatHex02 uppercase)).flatten⟩
    | none => unicodeHex
  else unicodeHex

/-- `lists/services.py` `_generate_username_strategies`: the ordered list of
`(identifier, uppercase_hex, use_windows1250)` candidates. -/
def _generate_username_strategies (lezec_username : String) : List (String × Bool × Bool) :=
  let username_lower := pyLowerStr lezec_username
  let username_upper := pyUpperStr lezec_username
  let username_capitalized :=
    if lezec_username.length > 1 then
      match lezec_username.data with
      | [] => pyUpperStr lezec_username
      | c :: rest => ⟨pyUpperChar c :: rest.map pyLowerChar⟩
    else pyUpperStr lezec_username
  [ (username_lower, false, true),
    (username_lower, false, false),
    (lezec_username, false, true),
    (lezec_username, false, false),
    (username_capitalized, false, true),
    (username_capitalized, false, false),
    (username_upper, false, true),
    (username_upper, false, false),
    (username_lower, true, true),
    (lezec_username, true, true) ]

/-! ### Parsed HTML tree (the BeautifulSoup interface used by the importer) -/

/-- A parsed HTML tree: an element with tag, attributes and children, or a
text node.  The soup object is modelled as the root element. -/
inductive HNode where
  | elem (tag : String) (attrs : List (String × String)) (children : List HNode)
  | text (s : String)

mutual

/-- Elements of a subtree whose tag satisfies `p`, in document order, the
subtree root included. -/
def collectMatching (p : String → Bool) : HNode → List HNode
  | .text _ => []
  | .elem t a ch =>
    (if p t then [HNode.elem t a ch] else []) ++ collectMatchingList p ch

/-- `collectMatching` over a forest. -/
def collectMatchingList (p : String → Bool) : List HNode → List HNode
  | [] => []
  | n :: ns => collectMatching p n ++ collectMatchingList p ns

end

/-- BeautifulSoup `node.find_all(tag)`: matching descendants in document
order (the node itself excluded). -/
def findAll (tag : String) (n : HNode) : List HNode :=
  match n with
  | .text _ => []
  | .elem _ _ ch => collectMatchingList (fun t => t == tag) ch

/-- BeautifulSoup `node.find_all([tag, ...])`. -/
def findAllTags (tags : List String) (n : HNode) : List HNode :=
  match n with
  | .text _ => []
  | .elem _ _ ch => collectMatchingList (fun t => tags.contains t) ch

mutual

/-- The text-node strings of a subtree, in document order. -/
def textPieces : HNode → List String
  | .text s => [s]
  | .elem _ _ ch => textPiecesList ch

/-- `textPieces` over a forest. -/
def textPiecesList : List HNode → List String
  | [] => []
  | n :: ns => textPieces n ++ textPiecesList ns

end

/-- BeautifulSoup `node.get_text()`. -/
def getText (n : HNode) : String :=
  String.join (textPieces n)

/-- BeautifulSoup `node.get_text(strip=True)`: each string stripped, then
joined. -/
def getTextStrip (n : HNode) : String :=
  String.join ((textPieces n).map (fun s => ⟨pyStripList s.data⟩))

/-- Attribute lookup on an element (`node[attr]` / `node.get(attr)`). -/
def getAttr (n : HNode) (key : String) : Option String :=
  match n with
  | .text _ => none
  | .elem _ attrs _ => attrs.lookup key

/-- BeautifulSoup `node.get(key, dflt)`. -/
def getAttrD (n : HNode) (key dflt : String) : String :=
  (getAttr n key).getD dflt

/-- Whether the element carries the attribute (the `href=True` filter). -/
def hasAttr (n : HNode) (key : String) : Bool :=
  (getAttr n key).isSome

/-! ### Table discovery, row parsing, locale filter -/

/-- A calendar date as produced by `datetime.strptime(·, "%d.%m.%Y").date()`. -/
structure DDate where
  day : Nat
  month : Nat
  year : Nat
deriving DecidableEq, Repr

/-- Gregorian leap-year rule used by `datetime.date`. -/
def isLeapYear (y : Nat) : Bool :=
  y % 4 == 0 && (y % 100 != 0 || y % 400 == 0)

/-- Days in a month, as validated by `datetime.date`. -/
def daysInMonth (m y : Nat) : Nat :=
  if m = 2 then (if isLeapYear y then 29 else 28)
  else if m = 4 ∨ m = 6 ∨ m = 9 ∨ m = 11 then 30
  else 31

/-- Nonempty and all ASCII digits. -/
def allDigits (s : String) : Bool :=
  s ≠ "" && s.data.all (fun c => c.isDigit)

/-- `datetime.strptime(s, "%d.%m.%Y").date()`: day and month of one or two
digits, literal dots, year of up to four digits, ranges validated by the
calendar; `none` models the caught `ValueError`. -/
def parseDateDMY (s : String) : Option DDate :=
  match s.splitOn "." with
  | [d, m, y] =>
    if allDigits d && d.length ≤ 2 && allDigits m && m.length ≤ 2 &&
        allDigits y && y.length ≤ 4 then
      match d.toNat?, m.toNat?, y.toNat? with
      | some dn, some mn, some yn =>
        if 1 ≤ mn && mn ≤ 12 && 1 ≤ dn && dn ≤ daysInMonth mn yn && 1 ≤ yn then
          some ⟨dn, mn, yn⟩
        else none
      | _, _, _ => none
    else none
  | _ => none

/-- One extracted diary row (the dict built by `_parse_tick_row`). -/
structure TickData where
  name : String
  lezec_id : Option String
  grade : Option String
  date : DDate
  style : String
  location : String
deriving DecidableEq, Repr

/-- The query component of `urlparse(urljoin(base_url, href))`: everything
after the first `?` and before a `#`. -/
def queryOfHref (href : String) : String :=
  match href.splitOn "?" with
  | [] => ""
  | [_] => ""
  | _ :: rest => ((String.intercalate "?" rest).splitOn "#").headD ""

/-- `parse_qs(query).get(key, [None])[0]`: first value of `key` among the
`&`-separated `k=v` fields; fields without `=` or with an empty value are
dropped by `parse_qs`. -/
def parseQsFirst (query key : String) : Option String :=
  (query.splitOn "&").findSome? (fun part =>
    match part.splitOn "=" with
    | [] => none
    | [_] => none
    | k :: vs =>
      let v := String.intercalate "=" vs
      if k = key && v ≠ "" then some v else none)

/-- `lists/services.py` `_parse_tick_row`: parse one `<tr>` into tick data;
`none` models the silently skipped row. -/
def _parse_tick_row (row : HNode) : Option TickData :=
  match findAllTags ["td", "th"] row with
  | c0 :: c1 :: c2 :: c3 :: rest =>
    let date_str := getTextStrip c0
    if date_str = "" then none
    else
      match parseDateDMY date_str with
      | none => none
      | some date =>
        match ((findAll "a" c1).filter (fun n => hasAttr n "href")).head? with
        | none => none
        | some route_link =>
          let route_name := getTextStrip route_link
          let route_href := getAttrD route_link "href" ""
          let route_id :=
            if strContains route_href "cesta.php?key=" then
              parseQsFirst (queryOfHref route_href) "key"
            else none
          let location := getTextStrip c2
          let grade := some (getTextStrip c3)
          let style :=
            match rest.get? 1 with
            | some c5 => getTextStrip c5
            | none => ""
          some { name := route_name, lezec_id := route_id, grade := grade,
                 date := date, style := style, location := location }
  | _ => none

/-- The per-table acceptance test from `_find_main_diary_table`'s loop
body: more than 5 rows, at least 4 `<th>` header cells, the three header
markers, and a first data cell that contains a dot and has exactly 10
characters. -/
def _check_diary_table (table : HNode) : Bool :=
  let rows := findAll "tr" table
  if rows.length > 5 then
    match rows with
    | [] => false
    | header_row :: restRows =>
      let header_text := getText header_row
      let header_cells := findAll "th" header_row
      if header_cells.length ≥ 4 && strContains header_text "Datum" &&
          strContains header_text "Cesta" && strContains header_text "Klas" then
        match restRows.head? with
        | none => false
        | some first_data_row =>
          match (findAll "td" first_data_row).head? with
          | none => false
          | some first_cell =>
            let first_cell_text := getTextStrip first_cell
            strContains first_cell_text "." && first_cell_text.length == 10
      else false
  else false

/-- `lists/services.py` `_find_main_diary_table`: the first table of the
page passing all the checks. -/
def _find_main_diary_table (soup : HNode) : Option HNode :=
  (findAll "table" soup).find? _check_diary_table

/-- `lists/services.py` `_extract_ticks_from_diary`: rows of the main
table, header skipped, each parsed row kept. -/
def _extract_ticks_from_diary (soup : HNode) : List TickData :=
  match _find_main_diary_table soup with
  | none => []
  | some main_table =>
    match findAll "tr" main_table with
    | [] => []
    | _ :: dataRows => dataRows.filterMap _parse_tick_row

/-- `lists/services.py` `MORAVSKY_KRAS_AREAS`. -/
def MORAVSKY_KRAS_AREAS : List String :=
  ["Holštejn", "Josefovské Údolí", "Rudice", "Skály V Údolí Říčky",
   "Sloup", "Vyvřelina", "Žleby"]

/-- `lists/services.py` `_filter_moravsky_kras_ticks`. -/
def _filter_moravsky_kras_ticks (ticks : List TickData) : List TickData :=
  ticks.filter (fun tick =>
    MORAVSKY_KRAS_AREAS.contains tick.location ||
    strContains tick.location "Moravský" ||
    strContains tick.location "Kras")

/-! ### Catalog store (areas and boulder problems) and Record Matcher -/

/-- One entry of `BoulderProblem.external_links` (a dict with `label` and
`url`; only `url` is read by the importer). -/
structure ExternalLink where
  label : String
  url : String
deriving DecidableEq, Repr

/-- A catalog `Area` record (the fields the importer reads). -/
structure Area where
  id : Nat
  name : String
deriving DecidableEq, Repr

/-- A catalog `BoulderProblem` record (the fields the importer reads). -/
structure BoulderProblem where
  id : Nat
  name : String
  name_normalized : String
  areaId : Nat
  external_links : List ExternalLink
deriving DecidableEq, Repr

/-- The catalog store.  List order is the store's iteration order (the
order Django hands back rows), which `first()`-style calls depend on. -/
structure Catalog where
  areas : List Area
  problems : List BoulderProblem
deriving DecidableEq, Repr

/-- Django's `__icontains` lookup: case-insensitive substring test. -/
def icontains (field needle : String) : Bool :=
  strContains (pyLowerStr field) (pyLowerStr needle)

/-- `lists/services.py` `_get_moravsky_kras_areas`: areas whose name
contains `Moravský` or `Kras` (case-insensitively), plus — when a truthy
`tick_area` is given — areas whose name contains it.  The absent/`None`
argument is modelled as `""` (both are falsy in the source). -/
def _get_moravsky_kras_areas (C : Catalog) (tick_area : String) : List Area :=
  C.areas.filter (fun a =>
    icontains a.name "Moravský" || icontains a.name "Kras" ||
    (tick_area != "" && icontains a.name tick_area))

/-- `BoulderProblem.find_by_normalized_name` (`boulders/models.py`) with
the `area` filter the importer always passes. -/
def find_by_normalized_name (C : Catalog) (name : String) (area : Area) :
    List BoulderProblem :=
  C.problems.filter (fun p =>
    p.name_normalized == normalizeName name && p.areaId == area.id)

/-- `lists/services.py` `_find_boulder_by_external_id`: scan the problems
of the candidate areas (or all problems when no candidate area exists) for
the first one with an external link whose URL contains `key=<id>`. -/
def _find_boulder_by_external_id (C : Catalog) (boulder_id : String)
    (tick_area : String) : Option BoulderProblem :=
  let moravsky_kras_areas := _get_moravsky_kras_areas C tick_area
  let boulders_to_check :=
    if !moravsky_kras_areas.isEmpty then
      C.problems.filter (fun p => moravsky_kras_areas.any (fun a => a.id == p.areaId))
    else C.problems
  boulders_to_check.find? (fun boulder =>
    boulder.external_links.any (fun link =>
      link.url != "" && strContains link.url ("key=" ++ boulder_id)))

/-- `lists/services.py` `_find_boulder_by_name`: exact normalized-name
match per candidate area first, then the `icontains` partial match on the
first 10 characters of the name. -/
def _find_boulder_by_name (C : Catalog) (boulder_name : String) :
    Option BoulderProblem :=
  let moravsky_kras_areas := _get_moravsky_kras_areas C ""
  if moravsky_kras_areas.isEmpty then none
  else
    match moravsky_kras_areas.findSome? (fun area =>
        (find_by_normalized_name C boulder_name area).head?) with
    | some problem => some problem
    | none =>
      moravsky_kras_areas.findSome? (fun area =>
        (C.problems.filter (fun p =>
          p.areaId == area.id && icontains p.name (boulder_name.take 10))).head?)

/-- `lists/services.py` `_find_matching_boulder`: external-id strategy
first (when the row carried a truthy id), then the name strategies. -/
def _find_matching_boulder (C : Catalog) (tick_data : TickData) :
    Option BoulderProblem :=
  let boulder_name := tick_data.name
  match tick_data.lezec_id with
  | some bid =>
    if bid != "" then
      match _find_boulder_by_external_id C bid tick_data.location with
      | some problem => some problem
      | none => _find_boulder_by_name C boulder_name
    else _find_boulder_by_name C boulder_name
  | none => _find_boulder_by_name C boulder_name

/-- The `name_normalized` maintenance of `BoulderProblem.save`
(`boulders/models.py`): the field is recomputed from `name` only when it
is falsy (empty) at save time; otherwise the stored value is kept.  The
relationship validation of `save`/`full_clean` is not modelled. -/
def boulderProblemSave (p : BoulderProblem) : BoulderProblem :=
  if p.name_normalized == "" && p.name != "" then
    { p with name_normalized := normalizeName p.name }
  else if p.name_normalized == "" then
    { p with name_normalized := "" }
  else p

/-! ### Ascent-record store and the Importer -/

/-- One `Tick` row (`lists/models.py`): the fields the importer writes.
The store enforces `unique_together = [["user", "problem"]]`. -/
structure TickRec where
  userId : Nat
  problemId : Nat
  date : DDate
  notes : String
deriving DecidableEq, Repr

/-- The ascent-record store interface consumed by the importer:
`existsTick` is the truthiness of
`Tick.objects.filter(user=·, problem=·).first()` and `create` is
`Tick.objects.create`, with `none` standing for a raised exception
(caught by `_create_tick`). -/
structure TickStoreOps (σ : Type) where
  existsTick : σ → Nat → Nat → Bool
  create : σ → TickRec → Option σ

/-- The notes string built in `_create_tick`. -/
def tickNotes (style : String) : String :=
  if style != "" then "Imported from lezec.cz diary. Style: " ++ style
  else "Imported from lezec.cz diary"

/-- `lists/services.py` `_create_tick`: attempt the create; the source
returns `False` when any exception is raised (modelled by `create`
returning `none`). -/
def _create_tick {σ : Type} (ops : TickStoreOps σ) (s : σ) (userId : Nat)
    (problem : BoulderProblem) (tick_data : TickData) : Option σ :=
  ops.create s { userId := userId, problemId := problem.id,
                 date := tick_data.date, notes := tickNotes tick_data.style }

/-- The statistics accumulator of `_process_ticks`. -/
structure ImportStats where
  matched : Nat
  created : Nat
  existing : Nat
  not_found : Nat
  errors : Nat
deriving DecidableEq, Repr

/-- The per-entry loop of `_process_ticks`, with the statistics and the
ascent store threaded explicitly. -/
def _process_ticks_aux {σ : Type} (ops : TickStoreOps σ) (userId : Nat)
    (C : Catalog) : List TickData → ImportStats → σ → ImportStats × σ
  | [], stats, s => (stats, s)
  | tick_data :: rest, stats, s =>
    match _find_matching_boulder C tick_data with
    | none =>
      _process_ticks_aux ops userId C rest
        { stats with not_found := stats.not_found + 1 } s
    | some problem =>
      let stats1 := { stats with matched := stats.matched + 1 }
      if ops.existsTick s userId problem.id then
        _process_ticks_aux ops userId C rest
          { stats1 with existing := stats1.existing + 1 } s
      else
        match _create_tick ops s userId problem tick_data with
        | some s' =>
          _process_ticks_aux ops userId C rest
            { stats1 with created := stats1.created + 1 } s'
        | none =>
          _process_ticks_aux ops userId C rest
            { stats1 with errors := stats1.errors + 1 } s

/-- `lists/services.py` `_process_ticks`. -/
def _process_ticks {σ : Type} (ops : TickStoreOps σ) (userId : Nat)
    (C : Catalog) (ticks : List TickData) (s : σ) : ImportStats × σ :=
  _process_ticks_aux ops userId C ticks ⟨0, 0, 0, 0, 0⟩ s

/-- The dict returned by `import_lezec_diary` (statistics splatted next to
`success` and `message`). -/
structure ImportResult where
  success : Bool
  message : String
  matched : Nat
  created : Nat
  existing : Nat
  not_found : Nat
  errors : Nat
deriving DecidableEq, Repr

/-- `lists/services.py` `_create_error_response`. -/
def _create_error_response (message : String) : ImportResult :=
  { success := false, message := message, matched := 0, created := 0,
    existing := 0, not_found := 0, errors := 0 }

/-- `lists/services.py` `_handle_empty_diary_response`. -/
def _handle_empty_diary_response (soup : Option HNode) : ImportResult :=
  let page_text := match soup with
    | some s => pyLowerStr (getText s)
    | none => ""
  if strContains page_text "deníček" || strContains page_text "denik" then
    _create_error_response
      "No boulder ticks found in diary. The diary might be empty, private, or the username might be incorrect."
  else
    _create_error_response
      "Could not find diary page. The username might be incorrect or the diary might not be public."

/-- `lists/services.py` `_try_fetch_diary`.  `fetch` abstracts the
`requests.get` call on `denik.php` with the fixed query parameters, as a
function of the one varying parameter, the `uid` value; `none` models a
caught `RequestException`. -/
def _try_fetch_diary (fetch : String → Option HNode) (identifier : String)
    (uppercase_hex use_windows1250 : Bool) : Option HNode × Bool :=
  let identifier_hex := _encode_to_lezec_hex identifier uppercase_hex use_windows1250
  match fetch (identifier_hex ++ "h") with
  | none => (none, false)
  | some soup =>
    let page_text := pyLowerStr (getText soup)
    if strContains page_text "deníček" || strContains page_text "denik" then
      let ticks := _extract_ticks_from_diary soup
      if !ticks.isEmpty || strContains page_text "deníček" then (some soup, true)
      else (some soup, false)
    else (some soup, false)

/-- The loop of `_find_diary`, with the `tried_identifiers` set explicit. -/
def _find_diary_loop (fetch : String → Option HNode)
    (tried : List (String × Bool × Bool)) :
    List (String × Bool × Bool) → Option HNode
  | [] => none
  | strat :: rest =>
    if tried.contains strat then _find_diary_loop fetch tried rest
    else
      match _try_fetch_diary fetch strat.1 strat.2.1 strat.2.2 with
      | (soup, true) => soup
      | _ => _find_diary_loop fetch (strat :: tried) rest

/-- `lists/services.py` `_find_diary`. -/
def _find_diary (fetch : String → Option HNode) (lezec_username : String) :
    Option HNode :=
  _find_diary_loop fetch [] (_generate_username_strategies lezec_username)

/-- `lists/services.py` `import_lezec_diary`, with the remote site, the
catalog and the ascent store passed explicitly.  (The quotes the source
puts around the username inside the first error message are elided.) -/
def import_lezec_diary {σ : Type} (ops : TickStoreOps σ)
    (fetch : String → Option HNode) (C : Catalog) (userId : Nat)
    (lezec_username : String) (s : σ) : ImportResult × σ :=
  match _find_diary fetch lezec_username with
  | none =>
    (_create_error_response
      ("Could not find diary for " ++ lezec_username ++
       ". Please check:\n1. The username is correct\n2. The diary is set to public on lezec.cz"), s)
  | some soup =>
    let ticks := _extract_ticks_from_diary soup
    if ticks.isEmpty then (_handle_empty_diary_response (some soup), s)
    else
      let moravsky_kras_ticks := _filter_moravsky_kras_ticks ticks
      if moravsky_kras_ticks.isEmpty then
        (_create_error_response "No ticks found for Moravský Kras location", s)
      else
        let res := _process_ticks ops userId C moravsky_kras_ticks s
        ({ success := true,
           message := "Import completed. Found " ++
             toString moravsky_kras_ticks.length ++ " ticks from Moravský Kras.",
           matched := res.1.matched, created := res.1.created,
           existing := res.1.existing, not_found := res.1.not_found,
           errors := res.1.errors }, res.2)

/-- The durable ascent store itself: a list of `Tick` rows in insertion
order, `create` failing with an `IntegrityError` exactly when the
`unique_together` pair already exists. -/
def listStore : TickStoreOps (List TickRec) :=
  { existsTick := fun s u pid =>
      s.any (fun r => r.userId == u && r.problemId == pid),
    create := fun s r =>
      if s.any (fun q => q.userId == r.userId && q.problemId == r.problemId) then none
      else some (s ++ [r]) }

/-- Membership of a `(user, problem)` pair in the list-backed ascent
store (the `unique_together` key). -/
def pairIn (s : List TickRec) (u pid : Nat) : Bool :=
  s.any (fun r => r.userId == u && r.problemId == pid)

/-- A problem record that was renamed to `Hrad` while its stored
normalized name still reflects the previous name `Kniha`. -/
def staleProblem : BoulderProblem :=
  { id := 1, name := "Hrad", name_normalized := "kniha", areaId := 0,
    external_links := [] }

/-- A freshly constructed problem record, not yet normalized. -/
def freshProblem : BoulderProblem :=
  { id := 2, name := "Hrad", name_normalized := "", areaId := 0,
    external_links := [] }

/-- A remote site that refuses every request (every fetch raises). -/
def fetchNone : String → Option HNode := fun _ => none

/-! ### Concrete example inputs used by the witnesses and counterexamples -/
def exArea : Area := { id := 0, name := "Moravský Kras" }
def exProblem1 : BoulderProblem :=
  { id := 1, name := "Other", name_normalized := "other", areaId := 0,
    external_links := [{ label := "lezec", url := "https://www.lezec.cz/cesta.php?key=4821" }] }
def exProblem2 : BoulderProblem :=
  { id := 2, name := "Kniha", name_normalized := "kniha", areaId := 0,
    external_links := [] }
def exCatalog : Catalog := { areas := [exArea], problems := [exProblem1, exProblem2] }
def exTick : TickData :=
  { name := "Kniha", lezec_id := some "4821", grade := some "7A",
    date := ⟨15, 1, 2024⟩, style := "", location := "Holštejn" }

example : _find_matching_boulder exCatalog exTick = some exProblem1 := by decide
example : _find_boulder_by_name exCatalog "Kniha" = some exProblem2 := by decide

def exArea7 : Area := { id := 0, name := "Kras" }
def exProblem7 : BoulderProblem :=
  { id := 1, name := "samotarius extra", name_normalized := "samotarius extra",
    areaId := 0, external_links := [] }
def exCatalog7 : Catalog := { areas := [exArea7], problems := [exProblem7] }
def exTick7 : TickData :=
  { name := "SAMOTARIUS", lezec_id := none, grade := none,
    date := ⟨1, 1, 2024⟩, style := "", location := "Kras" }

example : _find_matching_boulder exCatalog7 exTick7 = some exProblem7 := by decide
example : strContains exProblem7.name (exTick7.name.take 10) = false := by decide

def exTh (s : String) : HNode := .elem "th" [] [.text s]
def exTd (s : String) : HNode := .elem "td" [] [.text s]
def exHeaderRow : HNode :=
  .elem "tr" [] [exTh "Datum", exTh "Cesta", exTh "Oblast", exTh "Klas"]
def exDataRow (cell : String) : HNode := .elem "tr" [] [exTd cell]
def exTable (cell : String) : HNode :=
  .elem "table" []
    [exHeaderRow, exDataRow cell, .elem "tr" [] [], .elem "tr" [] [],
     .elem "tr" [] [], .elem "tr" [] []]
def exSoup (cell : String) : HNode := .elem "[document]" [] [exTable cell]

example : (_find_main_diary_table (exSoup "15x01.2024")).isSome = true := by decide
example : (_find_main_diary_table (exSoup "15.01.2024")).isSome = true := by decide
example : (_find_main_diary_table (exSoup "15x01x2024")).isSome = false := by decide

def raceStore : TickStoreOps Unit :=
  { existsTick := fun _ _ _ => false, create := fun _ _ => none }

example : (_process_ticks raceStore 7 exCatalog [exTick] ()).1 =
    ⟨1, 0, 0, 0, 1⟩ := by decide

example : (_process_ticks listStore 7 exCatalog [exTick] []).1 =
    ⟨1, 1, 0, 0, 0⟩ := by decide
example : (_process_ticks listStore 7 exCatalog [exTick]
    (_process_ticks listStore 7 exCatalog [exTick] []).2).1 = ⟨1, 0, 1, 0, 0⟩ := by decide

example : normalizeName "České Budějovice" = "ceske budejovice" := by decide
example : normalizeName "CESKE BUDEJOVICE" = "ceske budejovice" := by decide
example : normalizeName "  Test  Area  " = "test area" := by decide
example : normalizeName "Dívčí válka" = "divci valka" := by decide
example : normalizeName "Barbařiny první krůčky" = "barbariny prvni krucky" := by decide
example : _encode_to_lezec_hex "ab" false true = "6162" := by decide
example : _encode_to_lezec_hex "α" false true = "3b1" := by decide
example : _encode_to_lezec_hex "α" false false = "3b1" := by decide
example : _encode_to_lezec_hex "Ž" false true = "8e" := by decide
example : _encode_to_lezec_hex "Ž" true true = "8E" := by decide

/-! ## Normalizer lemmas (towards idempotence) -/

theorem lookup_mem {β : Type} (t : List (Char × β)) (c : Char) (b : β)
    (h : List.lookup c t = some b) : (c, b) ∈ t := by
  induction t with
  | nil => simp [List.lookup] at h
  | cons p rest ih =>
    rw [List.lookup] at h
    cases hk : c == p.1 with
    | true =>
      rw [hk] at h
      have h1 : c = p.1 := by simpa using hk
      have h2 : p.2 = b := by simpa using h
      have h3 : p = (c, b) := by
        cases p
        simp_all
      rw [h3]
      exact List.mem_cons_self _ _
    | false =>
      rw [hk] at h
      exact List.mem_cons_of_mem _ (ih h)

theorem lookup_eq_none {β : Type} (t : List (Char × β)) (c : Char)
    (h : ∀ p ∈ t, ¬(p.1 = c)) : List.lookup c t = none := by
  induction t with
  | nil => rfl
  | cons p rest ih =>
    rw [List.lookup]
    have h1 : ¬(p.1 = c) := h p (List.mem_cons_self p rest)
    have h2 : (c == p.1) = false := by
      simp only [beq_eq_false_iff_ne, ne_eq]
      exact fun hc => h1 hc.symm
    rw [h2]
    exact ih (fun q hq => h q (List.mem_cons_of_mem _ hq))

theorem char_toNat_ofNat (n : Nat) (h : n < 0xD800) : (Char.ofNat n).toNat = n := by
  have hv : n.isValidChar := Or.inl h
  rw [Char.ofNat, dif_pos hv]
  rfl

theorem nfdTable_keys_high :
    nfdTable.all (fun e => 128 ≤ e.1.toNat) = true := by decide

theorem accentedLowerTable_keys_high :
    accentedLowerTable.all (fun e => 128 ≤ e.1.toNat) = true := by decide

theorem accentedLower_keys_in_nfd :
    accentedLowerTable.all (fun e => (List.lookup e.1 nfdTable).isSome) = true := by
  decide

theorem nfdTable_ground :
    nfdTable.all (fun e => e.2.all
      (fun d => isCombiningMark d || charGround (pyLowerChar d))) = true := by
  decide

theorem ground_of_nfd_lower (c d : Char) (hd : d ∈ nfdChar c)
    (hm : isCombiningMark d = false) : charGround (pyLowerChar d) = true := by
  cases h : List.lookup c nfdTable with
  | some ds =>
    have hmem : (c, ds) ∈ nfdTable := lookup_mem _ _ _ h
    have hall := List.all_eq_true.mp nfdTable_ground _ hmem
    have hd' : d ∈ ds := by simpa [nfdChar, h] using hd
    have hx := List.all_eq_true.mp hall d hd'
    simp only [Bool.or_eq_true] at hx
    cases hx with
    | inl hx => rw [hx] at hm; cases hm
    | inr hx => exact hx
  | none =>
    have hd' : d = c := by simpa [nfdChar, h] using hd
    subst hd'
    by_cases hA : 65 ≤ d.toNat ∧ d.toNat ≤ 90
    · have hlt : d.toNat + 32 < 0xD800 := by omega
      have ht : (Char.ofNat (d.toNat + 32)).toNat = d.toNat + 32 :=
        char_toNat_ofNat _ hlt
      have hrlow : pyLowerChar d = Char.ofNat (d.toNat + 32) := by
        simp [pyLowerChar, hA]
      have hrange : 97 ≤ (Char.ofNat (d.toNat + 32)).toNat ∧
          (Char.ofNat (d.toNat + 32)).toNat ≤ 122 := by omega
      have hn1 : List.lookup (Char.ofNat (d.toNat + 32)) nfdTable = none := by
        apply lookup_eq_none
        intro p hp hpr
        have hhigh := List.all_eq_true.mp nfdTable_keys_high p hp
        simp only [decide_eq_true_eq] at hhigh
        rw [hpr] at hhigh
        omega
      have hn2 : List.lookup (Char.ofNat (d.toNat + 32)) accentedLowerTable = none := by
        apply lookup_eq_none
        intro p hp hpr
        have hhigh := List.all_eq_true.mp accentedLowerTable_keys_high p hp
        simp only [decide_eq_true_eq] at hhigh
        rw [hpr] at hhigh
        omega
      have hmark : isCombiningMark (Char.ofNat (d.toNat + 32)) = false := by
        simp only [isCombiningMark]
        simp only [Bool.and_eq_false_iff]
        left
        simp only [decide_eq_false_iff_not]
        omega
      have hlow : pyLowerChar (Char.ofNat (d.toNat + 32)) = Char.ofNat (d.toNat + 32) := by
        have hno : ¬(65 ≤ (Char.ofNat (d.toNat + 32)).toNat ∧
            (Char.ofNat (d.toNat + 32)).toNat ≤ 90) := by omega
        simp [pyLowerChar, hno, hn2]
      rw [hrlow]
      simp [charGround, nfdChar, hn1, hmark, hlow]
    · have hn2 : List.lookup d accentedLowerTable = none := by
        cases hx : List.lookup d accentedLowerTable with
        | none => rfl
        | some v =>
          have hmem := lookup_mem _ _ _ hx
          have hs := List.all_eq_true.mp accentedLower_keys_in_nfd _ hmem
          simp only at hs
          rw [h] at hs
          cases hs
      have hlow : pyLowerChar d = d := by simp [pyLowerChar, hA, hn2]
      rw [hlow]
      simp [charGround, nfdChar, h, hm, hlow]

theorem pipelineChars_ground (l : List Char) (d : Char)
    (hd : d ∈ pipelineChars l) : charGround d = true := by
  simp only [pipelineChars, List.mem_map, List.mem_filter, List.mem_flatMap] at hd
  obtain ⟨d₀, ⟨⟨c, _hc, hd₀⟩, hmark⟩, rfl⟩ := hd
  refine ground_of_nfd_lower c d₀ hd₀ ?_
  simpa using hmark

theorem pipelineChars_fixed (l : List Char) (h : ∀ d ∈ l, charGround d = true) :
    pipelineChars l = l := by
  induction l with
  | nil => rfl
  | cons c cs ih =>
    have hc := h c (List.mem_cons_self _ _)
    have hcs := ih (fun d hd => h d (List.mem_cons_of_mem _ hd))
    simp only [charGround, Bool.and_eq_true, beq_iff_eq, Bool.not_eq_true'] at hc
    obtain ⟨⟨h1, h2⟩, h3⟩ := hc
    show (((c :: cs).flatMap nfdChar).filter
        (fun x => !isCombiningMark x)).map pyLowerChar = c :: cs
    rw [List.flatMap_cons, h1, List.singleton_append, List.filter_cons]
    have hkeep : (!isCombiningMark c) = true := by rw [h2]; rfl
    rw [hkeep]
    simp only [if_true, List.map_cons, h3]
    exact congrArg (c :: ·) hcs
theorem subWs_okSeq (l : List Char) : ∀ b, okSeq b (subWsAux b l) = true := by
  induction l with
  | nil => intro b; rfl
  | cons c cs ih =>
    intro b
    rw [subWsAux]
    by_cases hs : pySpace c
    · rw [if_pos hs]
      cases b with
      | true =>
        simpa using ih true
      | false =>
        simp only [Bool.false_eq_true, if_false]
        rw [okSeq, if_pos rfl]
        simpa using ih true
    · rw [if_neg hs]
      have hc : ¬(c = ' ') := by
        intro hc
        exact hs (by rw [hc]; decide)
      rw [okSeq, if_neg hc]
      simp only [Bool.and_eq_true, Bool.not_eq_true']
      exact ⟨by simpa using hs, ih false⟩

theorem subWs_id_of_okSeq (l : List Char) : ∀ b, okSeq b l = true →
    subWsAux b l = l := by
  induction l with
  | nil => intro b _; rfl
  | cons c cs ih =>
    intro b h
    rw [okSeq] at h
    by_cases hc : c = ' '
    · rw [if_pos hc] at h
      simp only [Bool.and_eq_true, Bool.not_eq_true'] at h
      obtain ⟨hb, hcs⟩ := h
      subst hc
      subst hb
      rw [subWsAux, if_pos (by decide : pySpace ' ' = true)]
      simp only [Bool.false_eq_true, if_false]
      exact congrArg (' ' :: ·) (ih true hcs)
    · rw [if_neg hc] at h
      simp only [Bool.and_eq_true, Bool.not_eq_true'] at h
      obtain ⟨hns, hcs⟩ := h
      rw [subWsAux, if_neg (by simp [hns])]
      exact congrArg (c :: ·) (ih false hcs)

theorem okSeq_append_left (l₁ : List Char) : ∀ l₂ b,
    okSeq b (l₁ ++ l₂) = true → okSeq b l₁ = true := by
  induction l₁ with
  | nil => intro _ _ _; rfl
  | cons c cs ih =>
    intro l₂ b h
    rw [List.cons_append, okSeq] at h
    rw [okSeq]
    by_cases hc : c = ' '
    · rw [if_pos hc] at h ⊢
      simp only [Bool.and_eq_true] at h ⊢
      exact ⟨h.1, ih l₂ true h.2⟩
    · rw [if_neg hc] at h ⊢
      simp only [Bool.and_eq_true] at h ⊢
      exact ⟨h.1, ih l₂ false h.2⟩

theorem okSeq_dropWhile (l : List Char) : ∀ b, okSeq b l = true →
    okSeq false (l.dropWhile pySpace) = true := by
  induction l with
  | nil => intro b _; rfl
  | cons c cs ih =>
    intro b h
    rw [okSeq] at h
    rw [List.dropWhile_cons]
    by_cases hs : pySpace c
    · rw [if_pos hs]
      by_cases hc : c = ' '
      · rw [if_pos hc] at h
        simp only [Bool.and_eq_true] at h
        exact ih true h.2
      · rw [if_neg hc] at h
        simp only [Bool.and_eq_true, Bool.not_eq_true'] at h
        rw [h.1] at hs
        simp at hs
    · rw [if_neg hs]
      have hc : ¬(c = ' ') := by
        intro hc
        exact hs (by rw [hc]; decide)
      rw [if_neg hc] at h
      rw [okSeq, if_neg hc]
      exact h

theorem subWs_chars (l : List Char) : ∀ b d, d ∈ subWsAux b l →
    d = ' ' ∨ d ∈ l := by
  induction l with
  | nil =>
    intro b d hd
    simp [subWsAux] at hd
  | cons c cs ih =>
    intro b d hd
    rw [subWsAux] at hd
    by_cases hs : pySpace c
    · rw [if_pos hs] at hd
      cases b with
      | true =>
        simp only [if_true] at hd
        rcases ih true d hd with h | h
        · exact Or.inl h
        · exact Or.inr (List.mem_cons_of_mem _ h)
      | false =>
        simp only [Bool.false_eq_true, if_false] at hd
        rcases List.mem_cons.mp hd with h | h
        · exact Or.inl h
        · rcases ih true d h with h' | h'
          · exact Or.inl h'
          · exact Or.inr (List.mem_cons_of_mem _ h')
    · rw [if_neg hs] at hd
      rcases List.mem_cons.mp hd with h | h
      · exact Or.inr (h ▸ List.mem_cons_self c cs)
      · rcases ih false d h with h' | h'
        · exact Or.inl h'
        · exact Or.inr (List.mem_cons_of_mem _ h')

theorem pyStrip_sublist (l : List Char) : (pyStripList l).Sublist l := by
  rw [pyStripList]
  have h1 : (l.dropWhile pySpace).Sublist l := List.dropWhile_sublist _
  have h2 : ((l.dropWhile pySpace).reverse.dropWhile pySpace).Sublist
      (l.dropWhile pySpace).reverse := List.dropWhile_sublist _
  have h3 : ((l.dropWhile pySpace).reverse.dropWhile pySpace).reverse.Sublist
      (l.dropWhile pySpace) := by
    have := h2.reverse
    simpa using this
  exact h3.trans h1

theorem collapseWs_chars (l : List Char) (d : Char) (hd : d ∈ collapseWs l) :
    d = ' ' ∨ d ∈ l := by
  rw [collapseWs] at hd
  exact subWs_chars l false d ((pyStrip_sublist _).mem hd)

theorem dropWhile_head_false (l : List Char) : ∀ c cs,
    l.dropWhile pySpace = c :: cs → pySpace c = false := by
  induction l with
  | nil =>
    intro c cs h
    cases h
  | cons a l ih =>
    intro c cs h
    rw [List.dropWhile_cons] at h
    by_cases hs : pySpace a
    · rw [if_pos hs] at h
      exact ih c cs h
    · rw [if_neg hs] at h
      cases h
      simpa using hs

theorem dropWhile_pySpace_idem (l : List Char) :
    (l.dropWhile pySpace).dropWhile pySpace = l.dropWhile pySpace := by
  cases h : l.dropWhile pySpace with
  | nil => rfl
  | cons c cs =>
    rw [List.dropWhile_cons, if_neg]
    rw [dropWhile_head_false l c cs h]
    simp

theorem collapseWs_idem (l : List Char) :
    collapseWs (collapseWs l) = collapseWs l := by
  have hou : okSeq false (subWsAux false l) = true := subWs_okSeq l false
  have hou₁ : okSeq false ((subWsAux false l).dropWhile pySpace) = true :=
    okSeq_dropWhile _ false hou
  have hdec : (((subWsAux false l).dropWhile pySpace).reverse.dropWhile pySpace).reverse ++
      (((subWsAux false l).dropWhile pySpace).reverse.takeWhile pySpace).reverse =
      (subWsAux false l).dropWhile pySpace := by
    rw [← List.reverse_append, List.takeWhile_append_dropWhile, List.reverse_reverse]
  have hcl : collapseWs l =
      (((subWsAux false l).dropWhile pySpace).reverse.dropWhile pySpace).reverse := rfl
  have hot : okSeq false (collapseWs l) = true := by
    refine okSeq_append_left (collapseWs l)
      ((((subWsAux false l).dropWhile pySpace).reverse.takeWhile pySpace).reverse) false ?_
    rw [hcl, hdec]
    exact hou₁
  have h1 : subWsAux false (collapseWs l) = collapseWs l :=
    subWs_id_of_okSeq _ false hot
  have h2 : (collapseWs l).dropWhile pySpace = collapseWs l := by
    cases hcase : collapseWs l with
    | nil => rfl
    | cons c cs =>
      have hu₁ : (subWsAux false l).dropWhile pySpace =
          c :: (cs ++ (((subWsAux false l).dropWhile pySpace).reverse.takeWhile pySpace).reverse) := by
        conv_lhs => rw [← hdec]
        rw [← hcl, hcase, List.cons_append]
      have hhead : pySpace c = false := dropWhile_head_false _ c _ hu₁
      rw [List.dropWhile_cons, if_neg (by simp [hhead])]
  have h3 : ((collapseWs l).reverse.dropWhile pySpace).reverse = collapseWs l := by
    have hcl : collapseWs l =
        (((subWsAux false l).dropWhile pySpace).reverse.dropWhile pySpace).reverse := rfl
    rw [hcl, List.reverse_reverse, dropWhile_pySpace_idem]
  show pyStripList (subWsAux false (collapseWs l)) = collapseWs l
  rw [h1, pyStripList, h2, h3]

theorem normalizeName_idem (s : String) :
    normalizeName (normalizeName s) = normalizeName s := by
  by_cases hs : s = ""
  · subst hs
    decide
  · have ht : normalizeName s = ⟨collapseWs (pipelineChars s.data)⟩ := by
      simp [normalizeName, normalize_problem_name, hs]
    rw [ht]
    by_cases h0 : (⟨collapseWs (pipelineChars s.data)⟩ : String) = ""
    · rw [h0]
      decide
    · have hchars : ∀ d ∈ collapseWs (pipelineChars s.data), charGround d = true := by
        intro d hd
        rcases collapseWs_chars _ d hd with h | h
        · rw [h]
          decide
        · exact pipelineChars_ground _ d h
      have hpt : pipelineChars (collapseWs (pipelineChars s.data)) =
          collapseWs (pipelineChars s.data) := pipelineChars_fixed _ hchars
      show normalize_problem_name (some ⟨collapseWs (pipelineChars s.data)⟩) = _
      rw [normalize_problem_name, if_neg h0]
      rw [show (⟨collapseWs (pipelineChars s.data)⟩ : String).data =
        collapseWs (pipelineChars s.data) from rfl]
      rw [hpt, collapseWs_idem]

/-! ## Statistics lemmas for `_process_ticks` -/

theorem process_aux_matched {σ : Type} (ops : TickStoreOps σ) (u : Nat)
    (C : Catalog) : ∀ (ts : List TickData) (st : ImportStats) (s : σ),
    (_process_ticks_aux ops u C ts st s).1.matched =
      st.matched + ts.countP (fun t => (_find_matching_boulder C t).isSome) := by
  intro ts
  induction ts with
  | nil => intro st s; simp [_process_ticks_aux]
  | cons t ts ih =>
    intro st s
    rw [_process_ticks_aux]
    cases hm : _find_matching_boulder C t with
    | none =>
      dsimp only
      rw [ih]
      simp [List.countP_cons, hm]
    | some p =>
      dsimp only
      by_cases he : ops.existsTick s u p.id
      · rw [if_pos he, ih]
        simp only [List.countP_cons, hm, Option.isSome_some, if_true]
        omega
      · rw [if_neg he]
        cases hc : _create_tick ops s u p t with
        | some s' =>
          rw [ih]
          simp only [List.countP_cons, hm, Option.isSome_some, if_true]
          omega
        | none =>
          rw [ih]
          simp only [List.countP_cons, hm, Option.isSome_some, if_true]
          omega

theorem process_aux_inv {σ : Type} (ops : TickStoreOps σ) (u : Nat)
    (C : Catalog) : ∀ (ts : List TickData) (st : ImportStats) (s : σ),
    (_process_ticks_aux ops u C ts st s).1.created +
      (_process_ticks_aux ops u C ts st s).1.existing +
      (_process_ticks_aux ops u C ts st s).1.errors + st.matched =
    (_process_ticks_aux ops u C ts st s).1.matched +
      st.created + st.existing + st.errors := by
  intro ts
  induction ts with
  | nil => intro st s; simp [_process_ticks_aux]; omega
  | cons t ts ih =>
    intro st s
    rw [_process_ticks_aux]
    cases hm : _find_matching_boulder C t with
    | none =>
      dsimp only
      have := ih { st with not_found := st.not_found + 1 } s
      simpa using this
    | some p =>
      dsimp only
      by_cases he : ops.existsTick s u p.id
      · rw [if_pos he]
        have := ih { st with matched := st.matched + 1, existing := st.existing + 1 } s
        simp at this ⊢
        omega
      · rw [if_neg he]
        cases hc : _create_tick ops s u p t with
        | some s' =>
          have := ih { st with matched := st.matched + 1, created := st.created + 1 } s'
          simp at this ⊢
          omega
        | none =>
          have := ih { st with matched := st.matched + 1, errors := st.errors + 1 } s
          simp at this ⊢
          omega

theorem process_aux_total {σ : Type} (ops : TickStoreOps σ) (u : Nat)
    (C : Catalog) : ∀ (ts : List TickData) (st : ImportStats) (s : σ),
    (_process_ticks_aux ops u C ts st s).1.matched +
      (_process_ticks_aux ops u C ts st s).1.not_found =
    st.matched + st.not_found + ts.length := by
  intro ts
  induction ts with
  | nil => intro st s; simp [_process_ticks_aux]
  | cons t ts ih =>
    intro st s
    rw [_process_ticks_aux]
    cases hm : _find_matching_boulder C t with
    | none =>
      dsimp only
      have := ih { st with not_found := st.not_found + 1 } s
      simp at this ⊢
      omega
    | some p =>
      dsimp only
      by_cases he : ops.existsTick s u p.id
      · rw [if_pos he]
        have := ih { st with matched := st.matched + 1, existing := st.existing + 1 } s
        simp at this ⊢
        omega
      · rw [if_neg he]
        cases hc : _create_tick ops s u p t with
        | some s' =>
          have := ih { st with matched := st.matched + 1, created := st.created + 1 } s'
          simp at this ⊢
          omega
        | none =>
          have := ih { st with matched := st.matched + 1, errors := st.errors + 1 } s
          simp at this ⊢
          omega
/-! ## Idempotence of the importer over the list-backed store -/

theorem pairIn_append (s : List TickRec) (r : TickRec) (u pid : Nat)
    (h : pairIn s u pid = true) : pairIn (s ++ [r]) u pid = true := by
  simp only [pairIn, List.any_append, Bool.or_eq_true]
  exact Or.inl h

theorem pairIn_new (s : List TickRec) (r : TickRec) :
    pairIn (s ++ [r]) r.userId r.problemId = true := by
  simp [pairIn, List.any_append]

theorem aux_store_mono (u : Nat) (C : Catalog) : ∀ (ts : List TickData)
    (st : ImportStats) (s : List TickRec) (u' pid : Nat),
    pairIn s u' pid = true →
    pairIn (_process_ticks_aux listStore u C ts st s).2 u' pid = true := by
  intro ts
  induction ts with
  | nil => intro st s u' pid h; simpa [_process_ticks_aux] using h
  | cons t ts ih =>
    intro st s u' pid h
    rw [_process_ticks_aux]
    cases hm : _find_matching_boulder C t with
    | none =>
      dsimp only
      exact ih _ _ _ _ h
    | some p =>
      dsimp only
      by_cases he : listStore.existsTick s u p.id = true
      · rw [if_pos he]
        exact ih _ _ _ _ h
      · rw [if_neg he]
        cases hc : _create_tick listStore s u p t with
        | some s' =>
          dsimp only
          have hg : pairIn s u p.id = false := by
            simpa [listStore, pairIn] using he
          have hs' : s ++ [{ userId := u, problemId := p.id, date := t.date, notes := tickNotes t.style }] = s' := by
            simp only [_create_tick, listStore] at hc
            rw [show (s.any (fun q => q.userId == u && q.problemId == p.id)) = false
              from hg] at hc
            simpa using hc
          refine ih _ _ _ _ ?_
          rw [← hs']
          exact pairIn_append s _ u' pid h
        | none =>
          dsimp only
          exact ih _ _ _ _ h

theorem aux_store_cover (u : Nat) (C : Catalog) : ∀ (ts : List TickData)
    (st : ImportStats) (s : List TickRec) (t : TickData) (p : BoulderProblem),
    t ∈ ts → _find_matching_boulder C t = some p →
    pairIn (_process_ticks_aux listStore u C ts st s).2 u p.id = true := by
  intro ts
  induction ts with
  | nil => intro st s t p ht _; cases ht
  | cons t₀ ts ih =>
    intro st s t p ht hm
    rw [_process_ticks_aux]
    cases hm₀ : _find_matching_boulder C t₀ with
    | none =>
      dsimp only
      rcases List.mem_cons.mp ht with rfl | hmem
      · rw [hm₀] at hm; cases hm
      · exact ih _ _ _ _ hmem hm
    | some p₀ =>
      dsimp only
      by_cases he : listStore.existsTick s u p₀.id = true
      · rw [if_pos he]
        rcases List.mem_cons.mp ht with rfl | hmem
        · rw [hm₀] at hm
          obtain rfl := Option.some.inj hm
          exact aux_store_mono u C ts _ s u p₀.id (by simpa [listStore, pairIn] using he)
        · exact ih _ _ _ _ hmem hm
      · rw [if_neg he]
        have hg : pairIn s u p₀.id = false := by
          simpa [listStore, pairIn] using he
        cases hc : _create_tick listStore s u p₀ t₀ with
        | some s' =>
          dsimp only
          have hs' : s ++ [{ userId := u, problemId := p₀.id, date := t₀.date, notes := tickNotes t₀.style }] = s' := by
            simp only [_create_tick, listStore] at hc
            rw [show (s.any (fun q => q.userId == u && q.problemId == p₀.id)) = false
              from hg] at hc
            simpa using hc
          rcases List.mem_cons.mp ht with rfl | hmem
          · rw [hm₀] at hm
            obtain rfl := Option.some.inj hm
            refine aux_store_mono u C ts _ s' u p₀.id ?_
            rw [← hs']
            simpa using pairIn_new s { userId := u, problemId := p₀.id, date := t.date, notes := tickNotes t.style }
          · exact ih _ _ _ _ hmem hm
        | none =>
          exfalso
          simp only [_create_tick, listStore] at hc
          rw [show (s.any (fun q => q.userId == u && q.problemId == p₀.id)) = false
            from hg] at hc
          simp at hc

theorem aux_all_existing (u : Nat) (C : Catalog) : ∀ (ts : List TickData)
    (st : ImportStats) (s : List TickRec),
    (∀ t ∈ ts, ∀ p, _find_matching_boulder C t = some p → pairIn s u p.id = true) →
    (_process_ticks_aux listStore u C ts st s).1.created = st.created ∧
    (_process_ticks_aux listStore u C ts st s).1.existing =
      st.existing + ts.countP (fun t => (_find_matching_boulder C t).isSome) ∧
    (_process_ticks_aux listStore u C ts st s).2 = s := by
  intro ts
  induction ts with
  | nil =>
    intro st s _
    refine ⟨rfl, ?_, rfl⟩
    simp [_process_ticks_aux]
  | cons t₀ ts ih =>
    intro st s h
    rw [_process_ticks_aux]
    cases hm₀ : _find_matching_boulder C t₀ with
    | none =>
      dsimp only
      obtain ⟨h1, h2, h3⟩ := ih { st with not_found := st.not_found + 1 } s
        (fun t ht p hp => h t (List.mem_cons_of_mem _ ht) p hp)
      refine ⟨h1, ?_, h3⟩
      rw [h2]
      simp [List.countP_cons, hm₀]
    | some p₀ =>
      dsimp only
      have hin : pairIn s u p₀.id = true :=
        h t₀ (List.mem_cons_self _ _) p₀ hm₀
      have he : listStore.existsTick s u p₀.id = true := by
        simpa [listStore, pairIn] using hin
      rw [if_pos he]
      obtain ⟨h1, h2, h3⟩ := ih
        { st with matched := st.matched + 1, existing := st.existing + 1 } s
        (fun t ht p hp => h t (List.mem_cons_of_mem _ ht) p hp)
      refine ⟨h1, ?_, h3⟩
      rw [h2]
      simp only [List.countP_cons, hm₀, Option.isSome_some, if_true]
      omega

theorem process_idem_core (C : Catalog) (u : Nat) (mk : List TickData)
    (s₀ : List TickRec) :
    (_process_ticks listStore u C mk
      (_process_ticks listStore u C mk s₀).2).1.created = 0 ∧
    (_process_ticks listStore u C mk
      (_process_ticks listStore u C mk s₀).2).1.existing =
    (_process_ticks listStore u C mk s₀).1.matched := by
  have hcover : ∀ t ∈ mk, ∀ p, _find_matching_boulder C t = some p →
      pairIn (_process_ticks listStore u C mk s₀).2 u p.id = true :=
    fun t ht p hp => aux_store_cover u C mk ⟨0, 0, 0, 0, 0⟩ s₀ t p ht hp
  obtain ⟨h1, h2, _⟩ := aux_all_existing u C mk ⟨0, 0, 0, 0, 0⟩
    (_process_ticks listStore u C mk s₀).2 hcover
  refine ⟨h1, ?_⟩
  simp only [_process_ticks] at h2 ⊢
  rw [h2, process_aux_matched]

/-! ## The claims -/

/-- C8: `normalize_problem_name` is a pure, deterministic function that is
idempotent — `normalize(normalize(s)) = normalize(s)` for every string —
and maps absent (`None`) and empty input to the empty string without
raising. -/
theorem normalize_idempotent_total :
    (∀ s : String, normalizeName (normalizeName s) = normalizeName s) ∧
    normalize_problem_name none = "" ∧
    normalize_problem_name (some "") = "" :=
  ⟨normalizeName_idem, rfl, by decide⟩

/-- C9: for every run of `_process_ticks`, the final statistics satisfy
`matched = created + existing + errors` and `matched + not_found` equals
the number of processed entries (so every entry lands in exactly one of
created/existing/errors/not_found). -/
theorem process_ticks_stats_partition {σ : Type} (ops : TickStoreOps σ)
    (u : Nat) (C : Catalog) (ticks : List TickData) (s : σ) :
    (_process_ticks ops u C ticks s).1.matched =
      (_process_ticks ops u C ticks s).1.created +
      (_process_ticks ops u C ticks s).1.existing +
      (_process_ticks ops u C ticks s).1.errors ∧
    (_process_ticks ops u C ticks s).1.matched +
      (_process_ticks ops u C ticks s).1.not_found = ticks.length ∧
    (_process_ticks ops u C ticks s).1.created +
      (_process_ticks ops u C ticks s).1.existing +
      (_process_ticks ops u C ticks s).1.errors +
      (_process_ticks ops u C ticks s).1.not_found = ticks.length := by
  have h1 := process_aux_inv ops u C ticks ⟨0, 0, 0, 0, 0⟩ s
  have h2 := process_aux_total ops u C ticks ⟨0, 0, 0, 0, 0⟩ s
  simp only [_process_ticks]
  simp only at h1 h2
  refine ⟨by omega, by omega, by omega⟩

/-- C5 counterexample: for the input `"α"` (outside windows-1250), the
windows-1250 candidate is not dropped — `_encode_to_lezec_hex` still
produces a hex identifier for it, namely the Unicode-code-point encoding,
even though the windows-1250 encoding of the text fails. -/
theorem encoder_fallback_cex :
    _encode_to_lezec_hex "α" false true = "3b1" ∧
    _encode_to_lezec_hex "α" false true = _encode_to_lezec_hex "α" false false ∧
    ("α".data.mapM cp1250Byte) = none := by decide

/-- C5 (amended): when the windows-1250 encoding of the text fails, the
encoder falls back to the hex of the Unicode code points for that
candidate — the candidate is not dropped, it degenerates to the Unicode
candidate. -/
theorem encoder_fallback_unicode (text : String) (uppercase : Bool)
    (h : text.data.mapM cp1250Byte = none) :
    _encode_to_lezec_hex text uppercase true =
      _encode_to_lezec_hex text uppercase false := by
  simp only [_encode_to_lezec_hex, h, if_true]
  simp

/-- C5 witness for the amended theorem at the concrete input `"α"`. -/
theorem encoder_fallback_unicode_witness :
    _encode_to_lezec_hex "α" false true = _encode_to_lezec_hex "α" false false :=
  encoder_fallback_unicode "α" false (by decide)

/-- C4 counterexample: saving a `BoulderProblem` renamed to `Hrad` whose
stored `name_normalized` is still `kniha` keeps the stale value, so the
invariant `name_normalized = normalize(name)` is not re-established. -/
theorem rename_keeps_stale_normalized_cex :
    (boulderProblemSave staleProblem).name_normalized = "kniha" ∧
    normalizeName staleProblem.name = "hrad" ∧
    ¬((boulderProblemSave staleProblem).name_normalized =
      normalizeName staleProblem.name) := by decide

/-- C4 (amended): `BoulderProblem.save` computes `name_normalized` from
`name` only when the stored value is empty at save time (which covers
creation); when it is nonempty, the stored value is kept unchanged even
if `name` was rewritten. -/
theorem save_normalized_only_when_empty (p : BoulderProblem) :
    (p.name_normalized = "" →
      (boulderProblemSave p).name_normalized = normalizeName p.name) ∧
    (p.name_normalized ≠ "" →
      (boulderProblemSave p).name_normalized = p.name_normalized) := by
  constructor
  · intro h
    by_cases hn : p.name = ""
    · simp [boulderProblemSave, h, hn, normalizeName, normalize_problem_name]
    · simp [boulderProblemSave, h, hn]
  · intro h
    simp [boulderProblemSave, h]

/-- C4 witness: the amended theorem applied to a fresh record (empty
normalized name, recomputed) and to the stale record (kept unchanged). -/
theorem save_normalized_only_when_empty_witness :
    (boulderProblemSave freshProblem).name_normalized =
      normalizeName freshProblem.name ∧
    (boulderProblemSave staleProblem).name_normalized =
      staleProblem.name_normalized :=
  ⟨(save_normalized_only_when_empty freshProblem).1 rfl,
   (save_normalized_only_when_empty staleProblem).2 (by decide)⟩

/-- C3 counterexample: with a store in which the existence pre-check sees
no record but the create hits the uniqueness conflict (a race, modelled by
`raceStore`), the entry is counted in `errors`, not in `existing`. -/
theorem create_conflict_not_existing_cex :
    (_process_ticks raceStore 7 exCatalog [exTick] ()).1.existing = 0 ∧
    (_process_ticks raceStore 7 exCatalog [exTick] ()).1.errors = 1 ∧
    (_process_ticks raceStore 7 exCatalog [exTick] ()).1.matched = 1 := by
  decide

/-- C3 (amended): whenever a matched entry passes the existence pre-check
and the subsequent create fails — a uniqueness violation from a race
included, since `_create_tick` catches every exception — the entry is
counted in `errors`; `existing` is not incremented. -/
theorem create_failure_counted_as_error {σ : Type} (ops : TickStoreOps σ)
    (u : Nat) (C : Catalog) (t : TickData) (s : σ) (p : BoulderProblem)
    (hm : _find_matching_boulder C t = some p)
    (hex : ops.existsTick s u p.id = false)
    (hcr : _create_tick ops s u p t = none) :
    (_process_ticks ops u C [t] s).1.errors = 1 ∧
    (_process_ticks ops u C [t] s).1.existing = 0 ∧
    (_process_ticks ops u C [t] s).1.matched = 1 := by
  simp [_process_ticks, _process_ticks_aux, hm, hex, hcr]

/-- C3 witness for the amended theorem at the concrete race store. -/
theorem create_failure_counted_as_error_witness :
    (_process_ticks raceStore 7 exCatalog [exTick] ()).1.errors = 1 ∧
    (_process_ticks raceStore 7 exCatalog [exTick] ()).1.existing = 0 ∧
    (_process_ticks raceStore 7 exCatalog [exTick] ()).1.matched = 1 :=
  create_failure_counted_as_error raceStore 7 exCatalog exTick () exProblem1
    (by decide) rfl rfl

/-- C2: when the entry carries a truthy external id and the external-id
strategy finds a record, `_find_matching_boulder` returns that record —
even when the name strategies would have found a different record. -/
theorem external_id_tier_wins (C : Catalog) (t : TickData) (bid : String)
    (p q : BoulderProblem)
    (hid : t.lezec_id = some bid) (hbid : bid ≠ "")
    (hext : _find_boulder_by_external_id C bid t.location = some p)
    (_hname : _find_boulder_by_name C t.name = some q) (_hpq : q ≠ p) :
    _find_matching_boulder C t = some p := by
  simp only [_find_matching_boulder, hid]
  have hb : (bid != "") = true := by simpa using hbid
  rw [hb]
  simp only [if_true, hext]

/-- C2 witness: a catalog where problem 1 matches the entry by external
link and problem 2 matches it by exact name; the external-id match wins. -/
theorem external_id_tier_wins_witness :
    _find_matching_boulder exCatalog exTick = some exProblem1 :=
  external_id_tier_wins exCatalog exTick "4821" exProblem1 exProblem2 rfl (by decide)
    (by decide) (by decide) (by decide)

theorem handle_empty_fields (x : Option HNode) :
    (_handle_empty_diary_response x).success = false ∧
    (_handle_empty_diary_response x).matched = 0 ∧
    (_handle_empty_diary_response x).created = 0 ∧
    (_handle_empty_diary_response x).existing = 0 ∧
    (_handle_empty_diary_response x).not_found = 0 ∧
    (_handle_empty_diary_response x).errors = 0 := by
  simp only [_handle_empty_diary_response]
  split <;> simp [_create_error_response]

/-- C10: whenever `import_lezec_diary` returns `success = false` — the
diary was not found, was empty, or had no entries for the region — the
five returned counters are all zero and the ascent store is unchanged. -/
theorem failure_result_zero_and_store_unchanged {σ : Type}
    (ops : TickStoreOps σ) (fetch : String → Option HNode) (C : Catalog)
    (u : Nat) (name : String) (s : σ)
    (h : (import_lezec_diary ops fetch C u name s).1.success = false) :
    (import_lezec_diary ops fetch C u name s).1.matched = 0 ∧
    (import_lezec_diary ops fetch C u name s).1.created = 0 ∧
    (import_lezec_diary ops fetch C u name s).1.existing = 0 ∧
    (import_lezec_diary ops fetch C u name s).1.not_found = 0 ∧
    (import_lezec_diary ops fetch C u name s).1.errors = 0 ∧
    (import_lezec_diary ops fetch C u name s).2 = s := by
  cases hfd : _find_diary fetch name with
  | none =>
    simp [import_lezec_diary, hfd, _create_error_response]
  | some soup =>
    by_cases ht : (_extract_ticks_from_diary soup).isEmpty
    · obtain ⟨_, f1, f2, f3, f4, f5⟩ := handle_empty_fields (some soup)
      simp only [import_lezec_diary, hfd, ht, if_true]
      exact ⟨f1, f2, f3, f4, f5, by simp⟩
    · by_cases hmk : (_filter_moravsky_kras_ticks
          (_extract_ticks_from_diary soup)).isEmpty
      · simp [import_lezec_diary, hfd, ht, hmk, _create_error_response]
      · exfalso
        simp [import_lezec_diary, hfd, ht, hmk] at h

/-- C10 witness: a run whose every fetch fails reports a failure with all
counters zero and leaves the store untouched. -/
theorem failure_result_zero_witness :
    (import_lezec_diary listStore fetchNone exCatalog 7 "Lucaa" []).1.matched = 0 ∧
    (import_lezec_diary listStore fetchNone exCatalog 7 "Lucaa" []).1.created = 0 ∧
    (import_lezec_diary listStore fetchNone exCatalog 7 "Lucaa" []).1.existing = 0 ∧
    (import_lezec_diary listStore fetchNone exCatalog 7 "Lucaa" []).1.not_found = 0 ∧
    (import_lezec_diary listStore fetchNone exCatalog 7 "Lucaa" []).1.errors = 0 ∧
    (import_lezec_diary listStore fetchNone exCatalog 7 "Lucaa" []).2 = [] :=
  failure_result_zero_and_store_unchanged listStore fetchNone exCatalog 7 "Lucaa" []
    (by decide)

/-- C1: running `import_lezec_diary` twice for the same user against the
same remote content, catalog, and list-backed ascent store is idempotent:
the second run creates nothing and its `existing` equals the first run's
`matched`. -/
theorem import_twice_idempotent (fetch : String → Option HNode) (C : Catalog)
    (u : Nat) (name : String) (s₀ : List TickRec) :
    (import_lezec_diary listStore fetch C u name
      (import_lezec_diary listStore fetch C u name s₀).2).1.created = 0 ∧
    (import_lezec_diary listStore fetch C u name
      (import_lezec_diary listStore fetch C u name s₀).2).1.existing =
    (import_lezec_diary listStore fetch C u name s₀).1.matched := by
  cases hfd : _find_diary fetch name with
  | none =>
    simp [import_lezec_diary, hfd, _create_error_response]
  | some soup =>
    by_cases ht : (_extract_ticks_from_diary soup).isEmpty
    · obtain ⟨_, f1, f2, f3, _, _⟩ := handle_empty_fields (some soup)
      simp only [import_lezec_diary, hfd, ht, if_true]
      exact ⟨f2, by rw [f3, f1]⟩
    · by_cases hmk : (_filter_moravsky_kras_ticks
          (_extract_ticks_from_diary soup)).isEmpty
      · simp [import_lezec_diary, hfd, ht, hmk, _create_error_response]
      · simp only [import_lezec_diary, hfd, ht, hmk, if_false]
        exact process_idem_core C u
          (_filter_moravsky_kras_ticks (_extract_ticks_from_diary soup)) s₀

/-- C7 counterexample: the entry `SAMOTARIUS` (no external id, no exact
normalized-name match) is matched by the partial tier to a problem whose
name does not contain the 10-character prefix as a case-sensitive
substring — the tier is case-insensitive (`icontains`), refuting the
case-sensitive reading. -/
theorem partial_match_case_insensitive_cex :
    _find_matching_boulder exCatalog7 exTick7 = some exProblem7 ∧
    exTick7.lezec_id = none ∧
    strContains exProblem7.name (exTick7.name.take 10) = false ∧
    icontains exProblem7.name (exTick7.name.take 10) = true := by decide

/-- C7 (amended): when the exact tier fails over all macro-region
candidate areas, the partial tier scans the areas in order and returns the
first record of the first area with a hit, the membership criterion being
case-INSENSITIVE containment of the first 10 characters of the entry
name. -/
theorem partial_tier_first_match (C : Catalog) (name : String)
    (p : BoulderProblem)
    (hne : (_get_moravsky_kras_areas C "").isEmpty = false)
    (hexact : (_get_moravsky_kras_areas C "").findSome?
      (fun area => (find_by_normalized_name C name area).head?) = none)
    (hpart : (_get_moravsky_kras_areas C "").findSome?
      (fun area => (C.problems.filter (fun q =>
        q.areaId == area.id && icontains q.name (name.take 10))).head?) = some p) :
    _find_boulder_by_name C name = some p ∧
    icontains p.name (name.take 10) = true := by
  constructor
  · simp only [_find_boulder_by_name, hne, hexact, hpart, Bool.false_eq_true,
      if_false]
  · obtain ⟨a, _ha, hh⟩ := List.exists_of_findSome?_eq_some hpart
    cases hfl : C.problems.filter (fun q =>
        q.areaId == a.id && icontains q.name (name.take 10)) with
    | nil => rw [hfl] at hh; cases hh
    | cons q rest =>
      rw [hfl] at hh
      have hqp : q = p := by simpa using hh
      subst hqp
      have hqmem : q ∈ C.problems.filter (fun q =>
          q.areaId == a.id && icontains q.name (name.take 10)) := by
        rw [hfl]
        exact List.mem_cons_self _ _
      have := (List.mem_filter.mp hqmem).2
      simp only [Bool.and_eq_true] at this
      exact this.2

/-- C7 witness for the amended theorem, on the `SAMOTARIUS` catalog. -/
theorem partial_tier_first_match_witness :
    _find_boulder_by_name exCatalog7 "SAMOTARIUS" = some exProblem7 ∧
    icontains exProblem7.name ("SAMOTARIUS".take 10) = true :=
  partial_tier_first_match exCatalog7 "SAMOTARIUS" exProblem7 (by decide) (by decide)
    (by decide)

/-- C6 counterexample: a table whose first data cell is `15x01.2024` —
10 characters but only ONE separator dot — passes `_find_main_diary_table`
(the code tests only `"." in text and len(text) == 10`), refuting the
requirement of two separators. -/
theorem one_dot_date_accepted_cex :
    (_find_main_diary_table (exSoup "15x01.2024")).isSome = true ∧
    "15x01.2024".length = 10 ∧
    "15x01.2024".data.count '.' = 1 := by decide

/-- C6 (amended): a table selected by `_find_main_diary_table` passes the
row-count, header-cell-count and three-marker checks, and its first data
cell's stripped text contains at least one dot (not necessarily two) and
has exactly 10 characters. -/
theorem main_table_checks (soup table : HNode)
    (h : _find_main_diary_table soup = some table) :
    5 < (findAll "tr" table).length ∧
    ∃ header_row restRows, findAll "tr" table = header_row :: restRows ∧
      4 ≤ (findAll "th" header_row).length ∧
      strContains (getText header_row) "Datum" = true ∧
      strContains (getText header_row) "Cesta" = true ∧
      strContains (getText header_row) "Klas" = true ∧
      ∃ first_data_row first_cell,
        restRows.head? = some first_data_row ∧
        (findAll "td" first_data_row).head? = some first_cell ∧
        strContains (getTextStrip first_cell) "." = true ∧
        (getTextStrip first_cell).length = 10 := by
  have hc : _check_diary_table table = true := List.find?_some h
  simp only [_check_diary_table] at hc
  split at hc
  case isFalse => simp at hc
  case isTrue h5 =>
    refine ⟨h5, ?_⟩
    split at hc
    case h_1 => simp at hc
    case h_2 header_row restRows heq =>
      refine ⟨header_row, restRows, heq, ?_⟩
      split at hc
      case isFalse => simp at hc
      case isTrue hconds =>
        simp only [Bool.and_eq_true, decide_eq_true_eq] at hconds
        obtain ⟨⟨⟨hcells, hdatum⟩, hcesta⟩, hklas⟩ := hconds
        refine ⟨hcells, hdatum, hcesta, hklas, ?_⟩
        split at hc
        case h_1 => simp at hc
        case h_2 first_data_row heq2 =>
          split at hc
          case h_1 => simp at hc
          case h_2 first_cell heq3 =>
            simp only [Bool.and_eq_true, beq_iff_eq] at hc
            exact ⟨first_data_row, first_cell, heq2, heq3, hc.1, hc.2⟩

/-- C6 witness: the amended theorem applied to a page whose first data
cell is the well-formed date `15.01.2024`. -/
theorem main_table_checks_witness :
    5 < (findAll "tr" (exTable "15.01.2024")).length :=
  (main_table_checks (exSoup "15.01.2024") (exTable "15.01.2024") rfl).1

end KGB
